import Mathlib

/-!
Verification of the largo build orchestrator.

Shallow embedding of the relevant parts of the source tree:
  * `crates/merge/src/lib.rs` — the `Merge` trait instances;
  * `crates/largo_core/src/engines/mod.rs` — output classifier, engine builder;
  * `crates/largo_core/src/engines/pdflatex.rs` — the pdflatex command builder;
  * `crates/largo_core/src/build/mod.rs` — the build event stream state machine;
  * `crates/largo_core/src/conf.rs` — profiles and their resolution;
  * `typedir/src/lib.rs` — scoped path push/pop discipline;
  * `src/cli.rs` (Clean arm) and `crates/largo_core/src/dirs.rs` — the clean
    operation.

Strings are modelled as `List Char` (`Str`) so that every definition is
kernel-computable.
-/

namespace Largo

/-- Rust `String` / `&str`, modelled as a list of characters. -/
abbrev Str := List Char

/-! ### `Merge` trait instances, from `crates/merge/src/lib.rs`.

Rust's `merge_left` / `merge_right` mutate `self`; we model them as pure
functions returning the new value of `self`. -/

/-- `impl<T> Merge for Option<T>`, `merge_left`: keep `self` unless it is
`None`. -/
def mergeLeftOption (a b : Option α) : Option α :=
  match a with
  | some _ => a
  | none => b

/-- `impl<T> Merge for Option<T>`, `merge_right`: prefer `other` if present. -/
def mergeRightOption (a b : Option α) : Option α :=
  match b with
  | some _ => b
  | none => a

/-- `impl<T> Merge for Vec<T>`, `merge_left`: `self.extend(other)`. -/
def mergeLeftVec (a b : List α) : List α := a ++ b

/-- `impl<T> Merge for Vec<T>`, `merge_right`: also `self.extend(other)`. -/
def mergeRightVec (a b : List α) : List α := a ++ b

/-- Scalar (`merge_basic_types!` / `#[merge(replace)]`) `merge_left`:
keep `self`. -/
def mergeLeftScalar (a _b : α) : α := a

/-- Scalar (`merge_basic_types!` / `#[merge(replace)]`) `merge_right`:
`*self = other`. -/
def mergeRightScalar (_a b : α) : α := b

/-- Lookup in an association-list model of `BTreeMap` / `HashMap`. -/
def mapFind [DecidableEq K] (k : K) : List (K × V) → Option V
  | [] => none
  | (k', v) :: rest => if k' = k then some v else mapFind k rest

/-- The `entry` step of `BTreeMap::merge_left` / `merge_right`: on a vacant
entry insert `v`; on an occupied entry merge the stored value with `v`
using `f`. -/
def mapInsertMerge [DecidableEq K] (f : V → V → V) (m : List (K × V)) (k : K) (v : V) :
    List (K × V) :=
  match m with
  | [] => [(k, v)]
  | (k', v') :: rest =>
    if k' = k then (k', f v' v) :: rest else (k', v') :: mapInsertMerge f rest k v

/-- `impl Merge for BTreeMap`/`HashMap`: fold the entry step over `other`.
The two map impls are textually identical up to the value-level merge `f`. -/
def mapMergeWith [DecidableEq K] (f : V → V → V) (self other : List (K × V)) :
    List (K × V) :=
  other.foldl (fun s kv => mapInsertMerge f s kv.1 kv.2) self

/-! ### Output classifier, from `crates/largo_core/src/engines/mod.rs`
(`EngineOutput::poll_next`). -/

/-- `EngineInfo` (`crates/largo_core/src/engines/mod.rs`). -/
inductive EngineInfo where
  | error (line : Nat) (msg : Str)
deriving DecidableEq, Repr

/-- The classifier applied to each engine output line: a line starting with
the two-byte marker `"! "` becomes `Error { line: 0, msg: line.split_off(2) }`;
any other line yields nothing (the `Poll::Pending` arm). -/
def classify (line : Str) : Option EngineInfo :=
  match line with
  | '!' :: ' ' :: msg => some (.error 0 msg)
  | _ => none

/-- The classifier as the specification states it: a line beginning with the
two-character marker `"! "` maps to an error carrying the line with its
first two characters removed; all other lines are unclassified. -/
def classifySpec (line : Str) : Option EngineInfo :=
  if line.take 2 = "! ".data then some (.error 0 (line.drop 2)) else none

/-! ### The build event stream, from `crates/largo_core/src/build/mod.rs`
(`BuildOutput: Stream`, states `Init → StartEngine → EngineRunning → Finished
→ Exit`). -/

/-- An engine spawn failure (`self.engine.run()` returning `Err`), abstracted:
the payload of the error is irrelevant to the stream's control flow. -/
structure SpawnError where
  code : Nat
deriving DecidableEq, Repr

/-- `LargoInfo` (`crates/largo_core/src/build/mod.rs`).  `Compiling`'s
`version` field is always `None` in the source and is omitted; `duration` is
the wall-clock measurement, abstracted to a number. -/
inductive LargoInfo where
  | compiling (project : Str) (root : Str)
  | running (exec : Str)
  | finished (profileName : Str) (duration : Nat)
deriving DecidableEq, Repr

/-- `BuildInfo`: union of tool lifecycle events and classified engine
events. -/
inductive BuildInfo where
  | largoInfo (i : LargoInfo)
  | engineInfo (i : EngineInfo)
deriving DecidableEq, Repr

/-- One stream item, `Result<BuildInfo>`. -/
inductive BuildItem where
  | ok (i : BuildInfo)
  | err (e : SpawnError)
deriving DecidableEq, Repr

/-- `BuildState` (`crates/largo_core/src/build/mod.rs`).  `EngineRunning`
holds the engine's pending stdout lines (the `EngineOutput` line source). -/
inductive BuildState where
  | init
  | startEngine
  | engineRunning (lines : List Str)
  | finished
  | exit
deriving DecidableEq, Repr

/-- The `"(TODO) tex engine"` literal emitted by the `Running` event. -/
def todoExec : Str := "(TODO) tex engine".data

/-- The data of `BuildOutput` / `BuildCtx` read by `poll_next`: project name,
root path, profile name, the measured duration, and the outcome of
`engine.run()` (an error on spawn failure, otherwise the subprocess's stdout
lines).  The spawn outcome is fixed: the command being spawned does not
change between polls. -/
structure BuildCtx where
  projectName : Str
  rootDir : Str
  profileName : Str
  duration : Nat
  spawn : Except SpawnError (List Str)

/-- Result of one poll: `Poll::Ready(Option<item>)` or `Poll::Pending`. -/
inductive PollOut where
  | ready (item : Option BuildItem)
  | pending
deriving DecidableEq, Repr

/-- One step of `BuildOutput::poll_next`:
* `Init` emits `Compiling` and moves to `StartEngine`;
* `StartEngine` runs the engine: on success it emits `Running` and moves to
  `EngineRunning`, on failure it emits the error **without changing state**;
* `EngineRunning` takes the next line: a classified line is emitted, an
  unclassified one gives `Pending` (the inner `EngineOutput` arm); when the
  lines are exhausted the state becomes `Finished` and `poll_next` recurses,
  so the same poll already emits the `Finished` event and lands in `Exit`;
* `Finished` emits `Finished` and moves to `Exit`;
* `Exit` yields `Ready(None)` forever. -/
def pollNext (c : BuildCtx) : BuildState → PollOut × BuildState
  | .init =>
    (.ready (some (.ok (.largoInfo (.compiling c.projectName c.rootDir)))), .startEngine)
  | .startEngine =>
    match c.spawn with
    | .ok lines =>
      (.ready (some (.ok (.largoInfo (.running todoExec)))), .engineRunning lines)
    | .error e => (.ready (some (.err e)), .startEngine)
  | .engineRunning [] =>
    (.ready (some (.ok (.largoInfo (.finished c.profileName c.duration)))), .exit)
  | .engineRunning (l :: rest) =>
    match classify l with
    | some info => (.ready (some (.ok (.engineInfo info))), .engineRunning rest)
    | none => (.pending, .engineRunning rest)
  | .finished =>
    (.ready (some (.ok (.largoInfo (.finished c.profileName c.duration)))), .exit)
  | .exit => (.ready none, .exit)

/-- The items obtained by polling the stream `n` times from state `s`:
a `Ready(Some item)` contributes the item, `Ready(None)` and `Pending`
contribute nothing. -/
def pollTrace (c : BuildCtx) (s : BuildState) : Nat → List BuildItem
  | 0 => []
  | n + 1 =>
    match pollNext c s with
    | (.ready (some item), s') => item :: pollTrace c s' n
    | (.ready none, s') => pollTrace c s' n
    | (.pending, s') => pollTrace c s' n

/-! ### Command and the pdflatex builder, from
`crates/largo_core/src/engines/mod.rs` and
`crates/largo_core/src/engines/pdflatex.rs`. -/

/-- Insert-or-overwrite for the environment map of a process command
(`std::process::Command::env` replaces the value of an existing key). -/
def envInsert (k v : Str) : List (Str × Str) → List (Str × Str)
  | [] => [(k, v)]
  | (k', v') :: rest =>
    if k' = k then (k, v) :: rest else (k', v') :: envInsert k v rest

/-- Lookup in the environment map. -/
def envGet (k : Str) : List (Str × Str) → Option Str
  | [] => none
  | (k', v) :: rest => if k' = k then some v else envGet k rest

/-- `smol::process::Command`, restricted to the observable pieces the
builders touch: program, argument list, working directory, environment. -/
structure Command where
  program : Str
  args : List Str
  currentDir : Option Str
  envVars : List (Str × Str)
deriving DecidableEq, Repr

/-- `Command::new(program)`. -/
def Command.new (program : Str) : Command :=
  { program := program, args := [], currentDir := none, envVars := [] }

/-- `cmd.arg(a)`. -/
def Command.argPush (c : Command) (a : Str) : Command :=
  { c with args := c.args ++ [a] }

/-- `cmd.current_dir(d)`. -/
def Command.currentDirSet (c : Command) (d : Str) : Command :=
  { c with currentDir := some d }

/-- `cmd.env(k, v)`. -/
def Command.envSet (c : Command) (k v : Str) : Command :=
  { c with envVars := envInsert k v c.envVars }

/-- `LogLevel` (`crates/largo_core/src/build/mod.rs`). -/
inductive LogLevel where
  | warning
  | error
deriving DecidableEq, Repr

/-- `Verbosity` (`crates/largo_core/src/build/mod.rs`). -/
inductive Verbosity where
  | silent
  | info (level : LogLevel)
  | noisy
deriving DecidableEq, Repr

/-- `InteractionMode` (`crates/largo_core/src/engines/pdflatex.rs`). -/
inductive InteractionMode where
  | batchMode
  | nonStopMode
  | scrollMode
  | errorStopMode
deriving DecidableEq, Repr

/-- `clam::ArgValue for InteractionMode`: the value string passed after the
flag name. -/
def interactionModeStr : InteractionMode → Str
  | .batchMode => "batchmode".data
  | .nonStopMode => "nonstopmode".data
  | .scrollMode => "scrollmode".data
  | .errorStopMode => "errorstopmode".data

/-- `CommandLineOptions` (`crates/largo_core/src/engines/pdflatex.rs`),
restricted to the fields the `get_engine` flow can set.  Every other field
of the Rust struct keeps its `Default` value (`false` / `None`) along this
path and, under `clam`'s `ArgValue` emission, contributes no argument. -/
structure CommandLineOptions where
  interaction : Option InteractionMode
  jobname : Option Str
  shell_escape : Bool
  no_shell_escape : Bool
  synctex : Option Nat
deriving DecidableEq, Repr

/-- `bool`'s `ArgValue::set_cmd_arg`: emit the bare flag iff the field is
`true`. -/
def boolFlag (name : Str) (b : Bool) (cmd : Command) : Command :=
  if b then cmd.argPush name else cmd

/-- `Option<T>`'s `ArgValue::set_cmd_arg` for string-valued payloads:
`None` contributes nothing, `Some` emits `[name, value]`. -/
def optArg (name : Str) (v : Option Str) (cmd : Command) : Command :=
  match v with
  | some s => (cmd.argPush name).argPush s
  | none => cmd

/-- Decimal digits of a natural number (`i32::to_string` for the
non-negative values the builder uses). -/
def natToStr (n : Nat) : Str := Nat.toDigits 10 n

/-- `clam::Options::apply` for `CommandLineOptions` under the
`one_dash_kebab_case` convention (the derive keeps underscores verbatim and
prepends a single dash), restricted to the modelled fields, in struct
declaration order. -/
def applyCliOptions (o : CommandLineOptions) (cmd : Command) : Command :=
  let cmd := optArg "-interaction".data (o.interaction.map interactionModeStr) cmd
  let cmd := optArg "-jobname".data o.jobname cmd
  let cmd := boolFlag "-shell_escape".data o.shell_escape cmd
  let cmd := boolFlag "-no_shell_escape".data o.no_shell_escape cmd
  let cmd := optArg "-synctex".data (o.synctex.map natToStr) cmd
  cmd

/-- `Engine` wraps the finished command. -/
structure Engine where
  cmd : Command
deriving DecidableEq, Repr

/-- `PdflatexBuilder` (`crates/largo_core/src/engines/pdflatex.rs`). -/
structure PdflatexBuilder where
  cmd : Command
  texinputs : List Str
  cliOptions : CommandLineOptions
deriving DecidableEq, Repr

/-- `PdflatexBuilder::new`: wraps the configured pdflatex executable and
forces `interaction = NonStopMode`; all other options default. -/
def pdflatexNew (pdflatexExec : Str) : PdflatexBuilder :=
  { cmd := Command.new pdflatexExec
    texinputs := []
    cliOptions :=
      { interaction := some .nonStopMode
        jobname := none
        shell_escape := false
        no_shell_escape := false
        synctex := none } }

/-- `with_src_dir` (pdflatex impl): push the source directory onto the
builder's `texinputs` list; the command itself is untouched. -/
def withSrcDir (b : PdflatexBuilder) (dir : Str) : PdflatexBuilder :=
  { b with texinputs := b.texinputs ++ [dir] }

/-- `with_build_dir` (default impl in `EngineBuilder`): set the command's
working directory to the build directory. -/
def withBuildDir (b : PdflatexBuilder) (dir : Str) : PdflatexBuilder :=
  { b with cmd := b.cmd.currentDirSet dir }

/-- `with_verbosity` (pdflatex impl): a no-op. -/
def withVerbosity (b : PdflatexBuilder) (_v : Verbosity) : PdflatexBuilder := b

/-- `with_synctex`: set `synctex = Some(SYNCTEX_GZIPPED)` (= 1) iff
requested. -/
def withSynctex (b : PdflatexBuilder) (useSynctex : Bool) : PdflatexBuilder :=
  if useSynctex then
    { b with cliOptions := { b.cliOptions with synctex := some 1 } }
  else b

/-- `with_shell_escape`: `Some(true)` sets the enable flag, `Some(false)`
the disable flag, `None` neither. -/
def withShellEscape (b : PdflatexBuilder) (se : Option Bool) : PdflatexBuilder :=
  match se with
  | some true => { b with cliOptions := { b.cliOptions with shell_escape := true } }
  | some false => { b with cliOptions := { b.cliOptions with no_shell_escape := true } }
  | none => b

/-- The `TEXINPUTS` environment variable name. -/
def texinputsKey : Str := "TEXINPUTS".data

/-- `with_dependencies` (default impl in `EngineBuilder`): if the dependency
path list is non-empty, set `TEXINPUTS` to the comma-joined paths
(`.format(",")`). -/
def withDependencies (b : PdflatexBuilder) (deps : List Str) : PdflatexBuilder :=
  if deps.isEmpty then b
  else { b with cmd := b.cmd.envSet texinputsKey (List.intercalate ",".data deps) }

/-- `START_FILE` passed as the final argument of the command.  Modelled from
the spec: the constant's declaration is not under `src/` (only its uses
are); the build code's comments name the generated entry point
`_start.tex`. -/
def startFileName : Str := "_start.tex".data

/-- `PdflatexBuilder::finish`: set `max_print_line` (line-wrap disabling),
overwrite `TEXINPUTS` with the colon-joined `texinputs` list plus a
trailing colon, apply the CLI options, append the entry-point argument.
(Stdout/stderr piping is I/O plumbing with no observable effect here.) -/
def pdflatexFinish (b : PdflatexBuilder) : Engine :=
  let cmd := b.cmd.envSet "max_print_line".data "2147483647".data
  let texinputsVal := List.intercalate ":".data b.texinputs ++ ":".data
  let cmd := cmd.envSet texinputsKey texinputsVal
  let cmd := applyCliOptions b.cliOptions cmd
  let cmd := cmd.argPush startFileName
  { cmd := cmd }

/-! ### Directory derivations and `get_engine`, from
`crates/largo_core/src/build/mod.rs` and `crates/largo_core/src/dirs.rs`. -/

/-- `std::path::PathBuf::push` of one relative segment, on flat path
strings. -/
def pathPush (p : Str) (seg : Str) : Str := p ++ '/' :: seg

/-- `root.extend(())` through the `SRC_DIR = "src"` link. -/
def srcDirOf (root : Str) : Str := pathPush root "src".data

/-- `root.extend(())` through the `TARGET_DIR = "target"` link. -/
def targetDirOf (root : Str) : Str := pathPush root "target".data

/-- `target.extend(&profile)`: the parametric per-profile link. -/
def profileTargetDirOf (root profile : Str) : Str :=
  pathPush (targetDirOf root) profile

/-- `...extend(())` through the `BUILD_DIR = "build"` link, as
`try_finish_unpack` computes `build_dir`. -/
def buildDirOf (root profile : Str) : Str :=
  pathPush (profileTargetDirOf root profile) "build".data

/-- The inputs `BuildBuilderUnpacked::get_engine` reads: the configured
executable, the two directories, verbosity, the `synctex` and
`shell_escape` project settings, and the resolved dependency paths
(`get_dependency_paths`). -/
structure UnpackedBuild where
  pdflatexExec : Str
  srcDir : Str
  buildDir : Str
  verbosity : Verbosity
  synctexSetting : Option Bool
  shellEscapeSetting : Option Bool
  depPaths : List Str

/-- `BuildBuilderUnpacked::get_engine`: the builder chain
`new → with_src_dir → with_build_dir → with_verbosity → with_synctex
→ with_shell_escape → with_dependencies → finish`.
`synctex.unwrap_or_default()` is `getD false`. -/
def getEngine (u : UnpackedBuild) : Engine :=
  pdflatexFinish
    (withDependencies
      (withShellEscape
        (withSynctex
          (withVerbosity
            (withBuildDir (withSrcDir (pdflatexNew u.pdflatexExec) u.srcDir) u.buildDir)
            u.verbosity)
          (u.synctexSetting.getD false))
        u.shellEscapeSetting)
      u.depPaths)

/-! ### Scoped paths, from `typedir/src/lib.rs`.

A path buffer is a stack of single components.  `PathRef` extension
(`impl Extend for &mut PathRef` / `&mut PathBuf`) does
`self.path.push(link_segment)`; `impl Drop for PathRef` does
`self.path.pop()`.  Every link in the schema (`dirs.rs`) is a single
normal component, for which `PathBuf::push` appends one component and
`PathBuf::pop` removes the last one. -/

/-- `PathBuf::push` of a link's segment: append one component. -/
def pushSeg (p : List Str) (s : Str) : List Str := p ++ [s]

/-- `PathBuf::pop`, performed by `PathRef`'s `Drop`: remove the last
component. -/
def popSeg (p : List Str) : List Str := p.dropLast

/-- Extend a path by a chain of borrowed extensions, innermost first. -/
def extendChain (p : List Str) (segs : List Str) : List Str :=
  segs.foldl pushSeg p

/-- Release `n` borrowed extensions in last-extended-first-released order:
each release pops the most recently appended component, exactly as the
`Drop` impl fires when the innermost `PathRef` leaves scope (on normal exit
or during error propagation alike). -/
def releaseChain (p : List Str) : Nat → List Str
  | 0 => p
  | n + 1 => releaseChain (popSeg p) n

/-! ### Profiles and their resolution, from `crates/largo_core/src/conf.rs`
and `BuildBuilder::try_finish_unpack` in `crates/largo_core/src/build/mod.rs`. -/

/-- `OutputFormat` (`conf.rs`). -/
inductive OutputFormat where
  | dvi
  | ps
  | pdf
deriving DecidableEq, Repr

/-- `ProjectSettings` (`conf.rs`): three optional settings. -/
structure ProjectSettings where
  output_format : Option OutputFormat
  shell_escape : Option Bool
  synctex : Option Bool
deriving DecidableEq, Repr

/-- Derived `Merge` for `ProjectSettings`: field-by-field `merge_left` on
the `Option` fields. -/
def ProjectSettings.mergeLeft (a b : ProjectSettings) : ProjectSettings :=
  { output_format := mergeLeftOption a.output_format b.output_format
    shell_escape := mergeLeftOption a.shell_escape b.shell_escape
    synctex := mergeLeftOption a.synctex b.synctex }

/-- Derived `Merge` for `ProjectSettings`: field-by-field `merge_right`. -/
def ProjectSettings.mergeRight (a b : ProjectSettings) : ProjectSettings :=
  { output_format := mergeRightOption a.output_format b.output_format
    shell_escape := mergeRightOption a.shell_escape b.shell_escape
    synctex := mergeRightOption a.synctex b.synctex }

/-- `Profile` (`conf.rs`): a bundle of project-settings overrides. -/
structure Profile where
  projectSettings : ProjectSettings
deriving DecidableEq, Repr

/-- Derived `Merge` for `Profile`: delegate to the one field. -/
def Profile.mergeLeft (a b : Profile) : Profile :=
  { projectSettings := a.projectSettings.mergeLeft b.projectSettings }

/-- `Profile::default()`: all settings absent. -/
def Profile.defaultProfile : Profile :=
  { projectSettings := { output_format := none, shell_escape := none, synctex := none } }

/-- `Profiles`: the newtype over `BTreeMap<ProfileName, Profile>`, modelled
as an association list with unique keys. -/
abbrev Profiles := List (Str × Profile)

/-- The derived `Merge` for the `Profiles` newtype delegates to the
`BTreeMap` instance with `Profile`'s value merge. -/
def Profiles.mergeLeft (a b : Profiles) : Profiles :=
  mapMergeWith Profile.mergeLeft a b

/-- `DEV_PROFILE`. -/
def devName : Str := "dev".data

/-- `RELEASE_PROFILE`. -/
def releaseName : Str := "release".data

/-- `Profiles::standard()`: `"dev"` and `"release"`, both with default
settings. -/
def standardProfiles : Profiles :=
  [(devName, Profile.defaultProfile), (releaseName, Profile.defaultProfile)]

/-- `Profiles::select_profile`: `self.0.remove(name)` — the returned
`Option<Profile>` (the map is consumed; only the returned value is used by
`try_finish_unpack`). -/
def selectProfile (m : Profiles) (name : Str) : Option Profile :=
  mapFind name m

/-- `impl Default for ProfileName`: the `"dev"` profile name, used when
neither the caller nor the global config names a profile. -/
def defaultProfileName : Str := devName

/-- The profile-map part of `BuildBuilder::try_finish_unpack`:
`profiles = project.config.profiles.unwrap_or_default()` followed by
`profiles.merge_left(Profiles::standard())`. -/
def resolvedProfiles (declared : Option Profiles) : Profiles :=
  Profiles.mergeLeft (declared.getD []) standardProfiles

/-! ### The clean operation, from the `Clean` arm of
`ProjectSubcommand::execute` in `src/cli.rs`, the signature constant in
`crates/largo_core/src/files/mod.rs`, and `remove_dir_all` in
`crates/largo_core/src/dirs.rs`.

The filesystem is abstracted to the three facts the clean arm reads:
whether the target directory exists, the contents of the cache-marker file
(`None` when reading it fails because it is absent), and which per-profile
subdirectories exist.  The marker file's path node (`CachedirTagFile`) is
not declared under `src/`; per the spec it is "a cache-directory marker
file at the target root". -/

/-- `CACHEDIR_TAG_SIGNATURE` (`crates/largo_core/src/files/mod.rs`). -/
def cachedirTagSignature : Str :=
  "Signature: 8a477f597d28d172789f06886806bc55".data

/-- The observable state of the project's target tree. -/
structure CleanFs where
  targetDirPresent : Bool
  markerContents : Option Str
  profileDirs : List Str
deriving DecidableEq, Repr

/-- The two error exits of the clean arm: `read_to_string` failing on the
marker file, and the signature mismatch (`anyhow!("cache signature
invalid...")`). -/
inductive CleanError where
  | markerReadFailed
  | invalidSignature
deriving DecidableEq, Repr

/-- `dirs::remove_dir_all` on the abstract state: with a profile argument
remove that profile's subdirectory, otherwise remove the whole target tree.
`std::fs::remove_dir_all`'s `NotFound` error is mapped to `Ok`, so removal
of a missing directory succeeds and changes nothing. -/
def removeForClean (fs : CleanFs) (profile : Option Str) : CleanFs :=
  match profile with
  | some p => { fs with profileDirs := fs.profileDirs.erase p }
  | none => { targetDirPresent := false, markerContents := none, profileDirs := [] }

/-- The `Clean` arm: if the target directory exists, read the marker file
(`?`-propagating a read failure) and require `contents.get(0..sig.len())`
to equal the signature, refusing otherwise; then remove the requested
directory.  The returned pair is the filesystem afterwards and the error,
if any (error exits delete nothing). -/
def executeClean (fs : CleanFs) (profile : Option Str) : CleanFs × Option CleanError :=
  if fs.targetDirPresent then
    match fs.markerContents with
    | none => (fs, some .markerReadFailed)
    | some contents =>
      if contents.take cachedirTagSignature.length = cachedirTagSignature then
        (removeForClean fs profile, none)
      else (fs, some .invalidSignature)
  else (removeForClean fs profile, none)

/-! ### Helper lemmas -/

theorem mapFind_eq_none_of_not_mem [DecidableEq K] {k : K} {m : List (K × V)}
    (h : k ∉ m.map Prod.fst) : mapFind k m = none := by
  induction m with
  | nil => rfl
  | cons kv rest ih =>
    simp only [List.map_cons, List.mem_cons] at h
    push_neg at h
    simp [mapFind, ih h.2, Ne.symm h.1]

theorem mapFind_insertMerge_eq [DecidableEq K] (f : V → V → V) (m : List (K × V))
    (k : K) (v : V) :
    mapFind k (mapInsertMerge f m k v)
      = some (match mapFind k m with | some old => f old v | none => v) := by
  induction m with
  | nil => simp [mapInsertMerge, mapFind]
  | cons kv rest ih =>
    by_cases h : kv.1 = k
    · simp [mapInsertMerge, mapFind, h]
    · simp [mapInsertMerge, mapFind, h, ih]

theorem mapFind_insertMerge_ne [DecidableEq K] (f : V → V → V) (m : List (K × V))
    {k k' : K} (v : V) (h : k ≠ k') :
    mapFind k (mapInsertMerge f m k' v) = mapFind k m := by
  induction m with
  | nil => simp [mapInsertMerge, mapFind, Ne.symm h]
  | cons kv rest ih =>
    by_cases hk : kv.1 = k'
    · simp [mapInsertMerge, mapFind, hk, Ne.symm h]
    · by_cases hk2 : kv.1 = k <;> simp [mapInsertMerge, mapFind, hk, hk2, ih, h]

/-- Lookup after a map merge: an absent key stays absent, a key only in one
side keeps that side's value, a key in both sides gets the value-level
merge. -/
theorem mapFind_mergeWith [DecidableEq K] (f : V → V → V) (s o : List (K × V))
    (ho : (o.map Prod.fst).Nodup) (k : K) :
    mapFind k (mapMergeWith f s o)
      = match mapFind k o, mapFind k s with
        | none, r => r
        | some vo, none => some vo
        | some vo, some vs => some (f vs vo) := by
  induction o generalizing s with
  | nil => rfl
  | cons kv rest ih =>
    simp only [List.map_cons, List.nodup_cons] at ho
    have hfold : mapMergeWith f s (kv :: rest)
        = mapMergeWith f (mapInsertMerge f s kv.1 kv.2) rest := rfl
    rw [hfold, ih _ ho.2]
    by_cases h : kv.1 = k
    · subst h
      have hrest : mapFind kv.1 rest = none :=
        mapFind_eq_none_of_not_mem ho.1
      rw [hrest, mapFind_insertMerge_eq]
      simp [mapFind]
      cases mapFind kv.1 s <;> simp
    · rw [mapFind_insertMerge_ne _ _ _ (Ne.symm h)]
      simp [mapFind, h]

theorem extendChain_eq_append (p segs : List Str) :
    extendChain p segs = p ++ segs := by
  induction segs generalizing p with
  | nil => simp [extendChain]
  | cons s rest ih =>
    simp only [extendChain, List.foldl_cons] at *
    rw [ih]
    simp [pushSeg]

theorem releaseChain_append (segs : List Str) (p : List Str) :
    ∀ k, k ≤ segs.length →
      releaseChain (p ++ segs) k = p ++ segs.take (segs.length - k) := by
  induction segs using List.reverseRecOn generalizing p with
  | nil =>
    intro k hk
    have hk0 : k = 0 := Nat.le_zero.mp hk
    subst hk0
    simp [releaseChain]
  | append_singleton l a ih =>
    intro k hk
    match k with
    | 0 => simp [releaseChain]
    | k' + 1 =>
      have hk' : k' ≤ l.length := by
        simpa [Nat.succ_le_succ_iff] using hk
      have hpop : popSeg (p ++ (l ++ [a])) = p ++ l := by
        simp [popSeg, ← List.append_assoc, List.dropLast_concat]
      rw [show releaseChain (p ++ (l ++ [a])) (k' + 1)
            = releaseChain (popSeg (p ++ (l ++ [a]))) k' from rfl, hpop, ih p k' hk']
      have hlen : (l ++ [a]).length - (k' + 1) = l.length - k' := by
        simp
      rw [hlen, List.take_append_of_le_length (Nat.sub_le _ _)]

theorem pollTrace_exit (c : BuildCtx) : ∀ n, pollTrace c .exit n = [] := by
  intro n
  induction n with
  | zero => rfl
  | succ n ih => simpa [pollTrace, pollNext] using ih

theorem pollTrace_engineRunning (c : BuildCtx) (ls : List Str) (n : Nat) :
    pollTrace c (.engineRunning ls) (ls.length + 1 + n)
      = (ls.filterMap classify).map (fun i => .ok (.engineInfo i))
        ++ [.ok (.largoInfo (.finished c.profileName c.duration))] := by
  induction ls generalizing n with
  | nil =>
    have h : ([] : List Str).length + 1 + n = n + 1 := by
      simp
      omega
    rw [h]
    simp [pollTrace, pollNext, pollTrace_exit]
  | cons l rest ih =>
    have hfuel : (l :: rest).length + 1 + n = (rest.length + 1 + n) + 1 := by
      simp [List.length_cons]
      omega
    rw [hfuel]
    cases hcl : classify l with
    | some info =>
      simp [pollTrace, pollNext, hcl, ih]
    | none =>
      simp [pollTrace, pollNext, hcl, ih]

theorem pollTrace_startEngine_err (c : BuildCtx) (e : SpawnError)
    (hs : c.spawn = .error e) :
    ∀ m, pollTrace c .startEngine m = List.replicate m (.err e) := by
  intro m
  induction m with
  | zero => rfl
  | succ m ih =>
    simp [pollTrace, pollNext, hs, ih, List.replicate_succ]

/-- `merge_left` with an all-absent profile keeps every setting. -/
theorem Profile.mergeLeft_default (p : Profile) :
    Profile.mergeLeft p Profile.defaultProfile = p := by
  obtain ⟨⟨o, s, y⟩⟩ := p
  cases o <;> cases s <;> cases y <;> rfl

theorem envGet_envInsert_eq (k v : Str) (l : List (Str × Str)) :
    envGet k (envInsert k v l) = some v := by
  induction l with
  | nil => simp [envInsert, envGet]
  | cons kv rest ih =>
    by_cases h : kv.1 = k <;> simp [envInsert, envGet, h, ih]

theorem boolFlag_currentDir (n : Str) (b : Bool) (c : Command) :
    (boolFlag n b c).currentDir = c.currentDir := by
  unfold boolFlag
  split <;> rfl

theorem boolFlag_envVars (n : Str) (b : Bool) (c : Command) :
    (boolFlag n b c).envVars = c.envVars := by
  unfold boolFlag
  split <;> rfl

theorem optArg_currentDir (n : Str) (v : Option Str) (c : Command) :
    (optArg n v c).currentDir = c.currentDir := by
  unfold optArg
  split <;> rfl

theorem optArg_envVars (n : Str) (v : Option Str) (c : Command) :
    (optArg n v c).envVars = c.envVars := by
  unfold optArg
  split <;> rfl

theorem applyCliOptions_currentDir (o : CommandLineOptions) (c : Command) :
    (applyCliOptions o c).currentDir = c.currentDir := by
  simp [applyCliOptions, optArg_currentDir, boolFlag_currentDir]

theorem applyCliOptions_envVars (o : CommandLineOptions) (c : Command) :
    (applyCliOptions o c).envVars = c.envVars := by
  simp [applyCliOptions, optArg_envVars, boolFlag_envVars]

theorem withSynctex_cmd (b : PdflatexBuilder) (x : Bool) :
    (withSynctex b x).cmd = b.cmd := by
  unfold withSynctex
  split <;> rfl

theorem withSynctex_texinputs (b : PdflatexBuilder) (x : Bool) :
    (withSynctex b x).texinputs = b.texinputs := by
  unfold withSynctex
  split <;> rfl

theorem withShellEscape_cmd (b : PdflatexBuilder) (se : Option Bool) :
    (withShellEscape b se).cmd = b.cmd := by
  rcases se with _ | b' <;> [rfl; cases b' <;> rfl]

theorem withShellEscape_texinputs (b : PdflatexBuilder) (se : Option Bool) :
    (withShellEscape b se).texinputs = b.texinputs := by
  rcases se with _ | b' <;> [rfl; cases b' <;> rfl]

theorem withDependencies_currentDir (b : PdflatexBuilder) (deps : List Str) :
    (withDependencies b deps).cmd.currentDir = b.cmd.currentDir := by
  unfold withDependencies
  split <;> rfl

theorem withDependencies_texinputs (b : PdflatexBuilder) (deps : List Str) :
    (withDependencies b deps).texinputs = b.texinputs := by
  unfold withDependencies
  split <;> rfl

theorem pdflatexFinish_currentDir (b : PdflatexBuilder) :
    (pdflatexFinish b).cmd.currentDir = b.cmd.currentDir := by
  simp [pdflatexFinish, applyCliOptions_currentDir, Command.envSet, Command.argPush]

theorem pdflatexFinish_texinputsVar (b : PdflatexBuilder) :
    envGet texinputsKey (pdflatexFinish b).cmd.envVars
      = some (List.intercalate ":".data b.texinputs ++ ":".data) := by
  simp [pdflatexFinish, applyCliOptions_envVars, Command.argPush, Command.envSet,
    envGet_envInsert_eq]

/-! ### Claim theorems -/

/-- C5 (counterexample): the `Vec` instance of `Merge` appends for both
directions, so the claimed laws fail on it at concrete inputs: left-merging
`[1]` into `[]` twice gives `[1, 1]`, not `[1]` (idempotence fails), and
`[1].merge_left([2]) = [1, 2]` while `[2].merge_right([1]) = [2, 1]`
(duality fails). -/
theorem merge_vec_laws_cex :
    mergeLeftVec (mergeLeftVec ([] : List Nat) [1]) [1] ≠ mergeLeftVec ([] : List Nat) [1]
  ∧ mergeLeftVec [1] [2] ≠ mergeRightVec [2] [1] := by
  decide

/-- C5 (amended): for the `Option`, scalar (`replace`), and
`BTreeMap`/`HashMap` (over `Option` values, keys without duplicates) `Merge`
instances, repeated left-merge with the same value is idempotent and
`a.merge_left(b)` agrees with `b.merge_right(a)`; the `Vec` instance instead
appends `other` for both `merge_left` and `merge_right` and satisfies
neither law. -/
theorem merge_laws_amended :
    (∀ a b : Option Nat,
        mergeLeftOption (mergeLeftOption a b) b = mergeLeftOption a b
      ∧ mergeLeftOption a b = mergeRightOption b a)
  ∧ (∀ a b : Nat,
        mergeLeftScalar (mergeLeftScalar a b) b = mergeLeftScalar a b
      ∧ mergeLeftScalar a b = mergeRightScalar b a)
  ∧ (∀ a b : List (Nat × Option Nat),
        (a.map Prod.fst).Nodup → (b.map Prod.fst).Nodup →
        ∀ k, mapFind k (mapMergeWith mergeLeftOption (mapMergeWith mergeLeftOption a b) b)
              = mapFind k (mapMergeWith mergeLeftOption a b)
          ∧ mapFind k (mapMergeWith mergeLeftOption a b)
              = mapFind k (mapMergeWith mergeRightOption b a))
  ∧ (∀ a b : List Nat, mergeLeftVec a b = a ++ b ∧ mergeRightVec a b = a ++ b) := by
  refine ⟨?_, ?_, ?_, ?_⟩
  · intro a b
    cases a <;> cases b <;> simp [mergeLeftOption, mergeRightOption]
  · intro a b
    exact ⟨rfl, rfl⟩
  · intro a b ha hb k
    have hab := mapFind_mergeWith mergeLeftOption a b hb k
    have habb := mapFind_mergeWith mergeLeftOption (mapMergeWith mergeLeftOption a b) b hb k
    have hba := mapFind_mergeWith mergeRightOption b a ha k
    constructor
    · rw [habb, hab]
      cases hfb : mapFind k b with
      | none => rfl
      | some vb =>
        cases hfa : mapFind k a with
        | none => cases vb <;> rfl
        | some va => cases va <;> cases vb <;> rfl
    · rw [hab, hba]
      cases hfa : mapFind k a with
      | none => cases hfb : mapFind k b <;> rfl
      | some va =>
        cases hfb : mapFind k b with
        | none => rfl
        | some vb => cases va <;> cases vb <;> rfl
  · intro a b
    exact ⟨rfl, rfl⟩

/-- C5 (witness): the amended laws applied at concrete maps
`a = [(0, some 5)]`, `b = [(0, none), (1, some 7)]` and key `0`. -/
theorem merge_laws_amended_witness :
    mapFind 0 (mapMergeWith mergeLeftOption
        (mapMergeWith mergeLeftOption [(0, some 5)] [(0, none), (1, some 7)])
        [(0, none), (1, some 7)])
      = mapFind 0 (mapMergeWith mergeLeftOption [(0, some 5)] [(0, none), (1, some 7)]) :=
  (merge_laws_amended.2.2.1 [(0, some 5)] [(0, none), (1, some 7)]
    (by decide) (by decide) 0).1

/-- C6: a line is classified as `Error { line: 0, msg }` with `msg` the line
minus its first two characters exactly when it begins with the two-character
marker `"! "`, and is classified as nothing otherwise; in particular
`"! Undefined control sequence."` maps to an error carrying
`"Undefined control sequence."` and `"This is pdfTeX, Version 3.14"` maps
to nothing. -/
theorem classifier_rule :
    (∀ line : Str, classify line = classifySpec line)
  ∧ classify "! Undefined control sequence.".data
      = some (.error 0 "Undefined control sequence.".data)
  ∧ classify "This is pdfTeX, Version 3.14".data = none := by
  refine ⟨?_, by decide, by decide⟩
  intro line
  unfold classify classifySpec
  split
  · rfl
  · rename_i hne
    rw [if_neg]
    intro htake
    match line, hne, htake with
    | [], _, htake => simp at htake
    | [c], _, htake => simp [List.take] at htake
    | c :: c' :: m, hne, htake =>
      obtain ⟨h1, h2⟩ : c = '!' ∧ c' = ' ' := by simpa [List.take] using htake
      subst h1
      subst h2
      exact hne m rfl

/-- C7: releasing a chain of borrowed scoped-path extensions in
last-extended-first-released order pops, at each release, exactly the one
segment its extension appended (after `k` releases the path is the original
extended by the segments not yet released), and after all `n` releases the
path buffer equals its value before any extension. -/
theorem scoped_path_stack (p segs : List Str) :
    (∀ k, k ≤ segs.length →
        releaseChain (extendChain p segs) k
          = extendChain p (segs.take (segs.length - k)))
  ∧ releaseChain (extendChain p segs) segs.length = p := by
  have hmain : ∀ k, k ≤ segs.length →
      releaseChain (extendChain p segs) k
        = extendChain p (segs.take (segs.length - k)) := by
    intro k hk
    rw [extendChain_eq_append, extendChain_eq_append,
      releaseChain_append segs p k hk]
  refine ⟨hmain, ?_⟩
  have h := hmain segs.length (Nat.le_refl _)
  rw [Nat.sub_self, List.take_zero] at h
  simpa [extendChain] using h

/-- C7 (witness): a two-segment chain over the root `"/r"`, with one and
with both extensions released. -/
theorem scoped_path_stack_witness :
    releaseChain (extendChain ["/r".data] ["src".data, "x".data]) 1
      = ["/r".data, "src".data]
  ∧ releaseChain (extendChain ["/r".data] ["src".data, "x".data]) 2
      = ["/r".data] :=
  ⟨(scoped_path_stack ["/r".data] ["src".data, "x".data]).1 1 (by decide),
   (scoped_path_stack ["/r".data] ["src".data, "x".data]).2⟩

/-- C1: when the engine spawns successfully, polling the build stream from
`Init` yields exactly: one `Compiling` event, then one `Running` event, then
the classified `EngineInfo` events in subprocess output order, then one
`Finished` event — and any number of additional polls after that yields no
further item. -/
theorem build_stream_ordering (c : BuildCtx) (lines : List Str)
    (hs : c.spawn = .ok lines) (n : Nat) :
    pollTrace c .init (lines.length + 3 + n)
      = .ok (.largoInfo (.compiling c.projectName c.rootDir))
        :: .ok (.largoInfo (.running todoExec))
        :: ((lines.filterMap classify).map (fun i => .ok (.engineInfo i))
            ++ [.ok (.largoInfo (.finished c.profileName c.duration))]) := by
  have hfuel : lines.length + 3 + n = ((lines.length + 1 + n) + 1) + 1 := by
    omega
  rw [hfuel]
  simp [pollTrace, pollNext, hs, pollTrace_engineRunning]

/-- C1 (witness): a concrete run over two output lines, one of them an
error line; five polls produce the full trace and the extra conjunct shows
a sixth poll adds nothing. -/
theorem build_stream_ordering_witness :
    pollTrace ⟨"proj".data, "/p".data, "dev".data, 7,
        .ok ["! oops".data, "info line".data]⟩ .init 5
      = [.ok (.largoInfo (.compiling "proj".data "/p".data)),
         .ok (.largoInfo (.running todoExec)),
         .ok (.engineInfo (.error 0 "oops".data)),
         .ok (.largoInfo (.finished "dev".data 7))]
  ∧ pollTrace ⟨"proj".data, "/p".data, "dev".data, 7,
        .ok ["! oops".data, "info line".data]⟩ .init 6
      = [.ok (.largoInfo (.compiling "proj".data "/p".data)),
         .ok (.largoInfo (.running todoExec)),
         .ok (.engineInfo (.error 0 "oops".data)),
         .ok (.largoInfo (.finished "dev".data 7))] :=
  ⟨build_stream_ordering _ ["! oops".data, "info line".data] rfl 0,
   build_stream_ordering _ ["! oops".data, "info line".data] rfl 1⟩

/-- The context of the spawn-failure scenario: `engine.run()` fails. -/
def cexSpawnCtx : BuildCtx :=
  ⟨"proj".data, "/p".data, "dev".data, 0, .error ⟨3⟩⟩

/-- C2 (counterexample): after a spawn failure the stream is not terminal —
the second poll yields the spawn-error item, and the third poll yields a
further error item instead of nothing. -/
theorem spawn_failure_not_terminal_cex :
    pollTrace cexSpawnCtx .init 2
      = [.ok (.largoInfo (.compiling "proj".data "/p".data)), .err ⟨3⟩]
  ∧ pollTrace cexSpawnCtx .init 3
      = [.ok (.largoInfo (.compiling "proj".data "/p".data)), .err ⟨3⟩, .err ⟨3⟩] := by
  decide

/-- C2 (amended): on spawn failure the stream yields the error item but the
state machine stays in `StartEngine`, so every subsequent poll re-attempts
the spawn; while spawning keeps failing, each poll yields one more error
item (after `Compiling`, `n + 1` further polls give `n + 1` error items) —
the stream is not terminal after the first error item. -/
theorem spawn_failure_retries (c : BuildCtx) (e : SpawnError)
    (hs : c.spawn = .error e) (n : Nat) :
    pollTrace c .init (n + 2)
      = .ok (.largoInfo (.compiling c.projectName c.rootDir))
        :: List.replicate (n + 1) (.err e)
  ∧ pollNext c .startEngine = (.ready (some (.err e)), .startEngine) := by
  constructor
  · simp [pollTrace, pollNext, hs, pollTrace_startEngine_err c e hs,
      List.replicate_succ]
  · simp [pollNext, hs]

/-- C2 (witness): the amended statement at the concrete failing context,
with three error items after `Compiling` in four polls. -/
theorem spawn_failure_retries_witness :
    pollTrace cexSpawnCtx .init 4
      = [.ok (.largoInfo (.compiling "proj".data "/p".data)),
         .err ⟨3⟩, .err ⟨3⟩, .err ⟨3⟩] :=
  (spawn_failure_retries cexSpawnCtx ⟨3⟩ rfl 2).1

/-- The concrete build input used by the command-builder counterexamples:
project root `/proj`, profile `dev`, one local-path dependency `/dep1`. -/
def cexBuildInput : UnpackedBuild :=
  { pdflatexExec := "pdflatex".data
    srcDir := srcDirOf "/proj".data
    buildDir := buildDirOf "/proj".data "dev".data
    verbosity := .silent
    synctexSetting := none
    shellEscapeSetting := none
    depPaths := ["/dep1".data] }

/-- C3 (counterexample): for the concrete build input the finished engine
command's working directory is the per-profile build directory
`/proj/target/dev/build`, not the source directory `/proj/src`. -/
theorem engine_cwd_not_src_cex :
    (getEngine cexBuildInput).cmd.currentDir
      = some "/proj/target/dev/build".data
  ∧ (getEngine cexBuildInput).cmd.currentDir ≠ some "/proj/src".data := by
  decide

/-- C3 (amended): for every build input, the engine command's working
directory is the per-profile build directory set by `with_build_dir`; the
source directory is not the working directory but the (sole) entry of the
builder's `texinputs` search-path list. -/
theorem engine_cwd_is_build_dir (u : UnpackedBuild) :
    (getEngine u).cmd.currentDir = some u.buildDir
  ∧ (withDependencies
      (withShellEscape
        (withSynctex
          (withVerbosity
            (withBuildDir (withSrcDir (pdflatexNew u.pdflatexExec) u.srcDir) u.buildDir)
            u.verbosity)
          (u.synctexSetting.getD false))
        u.shellEscapeSetting)
      u.depPaths).texinputs = [u.srcDir] := by
  constructor
  · rw [getEngine, pdflatexFinish_currentDir, withDependencies_currentDir]
    rw [show (withShellEscape (withSynctex (withVerbosity
        (withBuildDir (withSrcDir (pdflatexNew u.pdflatexExec) u.srcDir) u.buildDir)
        u.verbosity) (u.synctexSetting.getD false)) u.shellEscapeSetting).cmd
      = (withSynctex (withVerbosity
          (withBuildDir (withSrcDir (pdflatexNew u.pdflatexExec) u.srcDir) u.buildDir)
          u.verbosity) (u.synctexSetting.getD false)).cmd
      from withShellEscape_cmd _ _]
    rw [withSynctex_cmd]
    rfl
  · rw [withDependencies_texinputs, withShellEscape_texinputs, withSynctex_texinputs]
    rfl

/-- C4 (counterexample): with the dependency `/dep1` declared, the finished
engine command's `TEXINPUTS` is `/proj/src:` — the comma-joined dependency
list written by `with_dependencies` has been overwritten by `finish`, and
the dependency directory appears nowhere in the final value (in particular
it is not a colon- or semicolon-joined dependency list). -/
theorem texinputs_deps_lost_cex :
    envGet texinputsKey (getEngine cexBuildInput).cmd.envVars
      = some "/proj/src:".data
  ∧ ¬ List.IsInfix "/dep1".data "/proj/src:".data := by
  decide

/-- C4 (amended): `with_dependencies` sets `TEXINPUTS` to the
**comma**-joined dependency paths (when any are declared), but `finish`
unconditionally overwrites `TEXINPUTS` with the colon-joined `texinputs`
list — which holds only the source directory — plus a trailing colon, so
the finished command's `TEXINPUTS` is always `<src dir>:` and contains no
dependency directory. -/
theorem texinputs_final_value :
    (∀ u : UnpackedBuild,
        envGet texinputsKey (getEngine u).cmd.envVars
          = some (u.srcDir ++ ":".data))
  ∧ (∀ (b : PdflatexBuilder) (deps : List Str), ¬ deps.isEmpty →
        envGet texinputsKey ((withDependencies b deps).cmd.envVars)
          = some (List.intercalate ",".data deps)) := by
  constructor
  · intro u
    rw [getEngine, pdflatexFinish_texinputsVar, withDependencies_texinputs,
      withShellEscape_texinputs, withSynctex_texinputs]
    simp [withVerbosity, withBuildDir, withSrcDir, pdflatexNew, List.intercalate]
  · intro b deps hdeps
    rw [withDependencies, if_neg hdeps]
    exact envGet_envInsert_eq _ _ _

/-- C4 (witness): the amended statement at the concrete build input, and the
pre-`finish` comma-joined value at a two-dependency list. -/
theorem texinputs_final_value_witness :
    envGet texinputsKey (getEngine cexBuildInput).cmd.envVars
      = some "/proj/src:".data
  ∧ envGet texinputsKey
        ((withDependencies (pdflatexNew "pdflatex".data)
          ["/dep1".data, "/dep2".data]).cmd.envVars)
      = some "/dep1,/dep2".data :=
  ⟨texinputs_final_value.1 cexBuildInput,
   texinputs_final_value.2 (pdflatexNew "pdflatex".data)
     ["/dep1".data, "/dep2".data] (by decide)⟩

/-- The code's marker test `contents.get(0..sig.len()) == Some(sig)` is
exactly "the contents begin with the signature". -/
theorem take_sig_iff (contents : Str) :
    (contents.take cachedirTagSignature.length = cachedirTagSignature)
      ↔ cachedirTagSignature <+: contents := by
  rw [List.prefix_iff_eq_take]
  exact eq_comm

/-- C8: with an existing target directory, clean refuses — returning an
error and deleting nothing — when the cache-marker file is absent (its read
fails) or its contents do not begin with the signature constant; when the
contents do begin with the signature, clean removes the whole target
directory, or, given a profile argument, that profile's subdirectory. -/
theorem clean_marker_check (fs : CleanFs) (profile : Option Str)
    (ht : fs.targetDirPresent = true) :
    (fs.markerContents = none →
        executeClean fs profile = (fs, some .markerReadFailed))
  ∧ (∀ contents, fs.markerContents = some contents →
        ¬ cachedirTagSignature <+: contents →
        executeClean fs profile = (fs, some .invalidSignature))
  ∧ (∀ contents, fs.markerContents = some contents →
        cachedirTagSignature <+: contents →
        executeClean fs none = (⟨false, none, []⟩, none)
      ∧ ∀ p, executeClean fs (some p)
          = ({ fs with profileDirs := fs.profileDirs.erase p }, none)) := by
  refine ⟨?_, ?_, ?_⟩
  · intro hm
    simp [executeClean, ht, hm]
  · intro contents hc hp
    have hcond : ¬(contents.take cachedirTagSignature.length = cachedirTagSignature) := by
      rw [take_sig_iff]
      exact hp
    simp [executeClean, ht, hc, hcond]
  · intro contents hc hp
    have hcond : contents.take cachedirTagSignature.length = cachedirTagSignature :=
      (take_sig_iff contents).mpr hp
    constructor
    · simp [executeClean, ht, hc, hcond, removeForClean]
    · intro p
      simp [executeClean, ht, hc, hcond, removeForClean]

/-- C8 (witness): a target whose marker reads `"bogus"` is refused with the
filesystem untouched; a target whose marker begins with the signature is
removed. -/
theorem clean_marker_check_witness :
    executeClean ⟨true, some "bogus".data, ["dev".data]⟩ none
      = (⟨true, some "bogus".data, ["dev".data]⟩, some .invalidSignature)
  ∧ executeClean ⟨true, some (cachedirTagSignature ++ "\n".data), ["dev".data]⟩ none
      = (⟨false, none, []⟩, none) :=
  ⟨(clean_marker_check ⟨true, some "bogus".data, ["dev".data]⟩ none rfl).2.1
      "bogus".data rfl (by decide),
   ((clean_marker_check ⟨true, some (cachedirTagSignature ++ "\n".data),
        ["dev".data]⟩ none rfl).2.2
      (cachedirTagSignature ++ "\n".data) rfl ⟨"\n".data, rfl⟩).1⟩

/-- C9: after `try_finish_unpack` left-merges the standard profiles beneath
the declared ones, the profile map always contains `"dev"` and `"release"`;
a declared profile of either name keeps its own settings (the standard
entry's all-absent settings change nothing under `merge_left`); and
selecting the default profile name `"dev"` always succeeds — even when the
manifest declares no profiles at all (`declared = none`). -/
theorem standard_profiles_resolution (declared : Option Profiles) :
    ((mapFind devName (resolvedProfiles declared)).isSome = true)
  ∧ ((mapFind releaseName (resolvedProfiles declared)).isSome = true)
  ∧ (∀ p, mapFind devName (declared.getD []) = some p →
        mapFind devName (resolvedProfiles declared) = some p)
  ∧ (∀ p, mapFind releaseName (declared.getD []) = some p →
        mapFind releaseName (resolvedProfiles declared) = some p)
  ∧ ((selectProfile (resolvedProfiles declared) defaultProfileName).isSome = true) := by
  have hnodup : (standardProfiles.map Prod.fst).Nodup := by decide
  have hdev := mapFind_mergeWith Profile.mergeLeft (declared.getD [])
    standardProfiles hnodup devName
  have hrel := mapFind_mergeWith Profile.mergeLeft (declared.getD [])
    standardProfiles hnodup releaseName
  have hsdev : mapFind devName standardProfiles = some Profile.defaultProfile := by
    decide
  have hsrel : mapFind releaseName standardProfiles = some Profile.defaultProfile := by
    decide
  rw [hsdev] at hdev
  rw [hsrel] at hrel
  refine ⟨?_, ?_, ?_, ?_, ?_⟩
  · rw [show resolvedProfiles declared
        = mapMergeWith Profile.mergeLeft (declared.getD []) standardProfiles from rfl,
      hdev]
    cases mapFind devName (declared.getD []) <;> rfl
  · rw [show resolvedProfiles declared
        = mapMergeWith Profile.mergeLeft (declared.getD []) standardProfiles from rfl,
      hrel]
    cases mapFind releaseName (declared.getD []) <;> rfl
  · intro p hp
    rw [show resolvedProfiles declared
        = mapMergeWith Profile.mergeLeft (declared.getD []) standardProfiles from rfl,
      hdev, hp]
    simp [Profile.mergeLeft_default]
  · intro p hp
    rw [show resolvedProfiles declared
        = mapMergeWith Profile.mergeLeft (declared.getD []) standardProfiles from rfl,
      hrel, hp]
    simp [Profile.mergeLeft_default]
  · rw [show selectProfile (resolvedProfiles declared) defaultProfileName
        = mapFind devName (resolvedProfiles declared) from rfl,
      show resolvedProfiles declared
        = mapMergeWith Profile.mergeLeft (declared.getD []) standardProfiles from rfl,
      hdev]
    cases mapFind devName (declared.getD []) <;> rfl

/-- C9 (witness): a manifest declaring its own `"dev"` profile keeps that
profile's settings after the merge with the standard profiles. -/
theorem standard_profiles_resolution_witness :
    mapFind devName (resolvedProfiles
        (some [(devName, ⟨⟨some .dvi, none, some true⟩⟩)]))
      = some ⟨⟨some .dvi, none, some true⟩⟩ :=
  (standard_profiles_resolution
      (some [(devName, ⟨⟨some .dvi, none, some true⟩⟩)])).2.2.1
    ⟨⟨some .dvi, none, some true⟩⟩ rfl

/-- C10: when the target directory does not exist the clean operation never
reads or checks the marker (it succeeds whatever the marker state is), and
on a consistent filesystem (no target, no marker, no profile
subdirectories) it returns success and leaves the filesystem unchanged,
because `remove_dir_all` maps the `NotFound` error to `Ok`. -/
theorem clean_missing_target (fs : CleanFs) (profile : Option Str)
    (ht : fs.targetDirPresent = false) :
    ((executeClean fs profile).2 = none)
  ∧ (fs.markerContents = none → fs.profileDirs = [] →
      executeClean fs profile = (fs, none)) := by
  constructor
  · cases profile <;> simp [executeClean, ht, removeForClean]
  · intro hm hp
    obtain ⟨t, m, d⟩ := fs
    simp only at ht hm hp
    subst ht
    subst hm
    subst hp
    cases profile <;> rfl

/-- C10 (witness): cleaning a project with no target directory, both with
and without a profile argument, succeeds and changes nothing. -/
theorem clean_missing_target_witness :
    executeClean ⟨false, none, []⟩ (some "dev".data) = (⟨false, none, []⟩, none)
  ∧ executeClean ⟨false, none, []⟩ none = (⟨false, none, []⟩, none) :=
  ⟨(clean_missing_target ⟨false, none, []⟩ (some "dev".data) rfl).2 rfl rfl,
   (clean_missing_target ⟨false, none, []⟩ none rfl).2 rfl rfl⟩

end Largo
